import Mathlib

/-!
Shallow embedding of `src/query.rs` of the `wmi-rs` crate.

The file models, faithfully to the Rust source:
  * `FilterValue` and `build_query` (query text construction);
  * `QueryResultEnumerator` with its `Iterator::next`, `Drop` and `p`
    accessor, driven by an explicit provider oracle (each foreign
    `IEnumWbemClassObject::Next` call is answered by a `NextResponse`);
  * `IWbemClassWrapper` with `list_properties`, driven by an oracle for
    the foreign `GetNames` / `safe_array_to_vec_of_strings` /
    `SafeArrayDestroy` calls;
  * `exec_query_native_wrapper`, `raw_query`, `query`, `filtered_query`.

Foreign pointers are modelled as `Nat` (0 is NULL).  A Rust `panic`
(`Option::unwrap` on `None`) is modelled as the `none` case of an outer
`Option` on the function result.  Helper code of the crate that lives
outside `src/` (`utils::check_hres`, the wide-string conversion) is
modelled from the spec, as marked in the doc comments.
-/

namespace WmiSpec

/-- Modelled from the spec: the classified error kinds (`WMIError` in
`utils.rs`, which is not part of the extracted sources).  A foreign
status failure carries the raw status code; a failed wide-string
conversion (interior NUL) is the malformed-query-text kind. -/
inductive WMIError where
  | hresultError (hres : Int)
  | nulError
  | convertError (code : Nat)
  | decodeError (code : Nat)
  deriving DecidableEq, Repr

/-- Modelled from the spec: `utils::check_hres` — a non-success (nonzero)
foreign status becomes a typed error carrying the raw status code. -/
def check_hres (hres : Int) : Except WMIError Unit :=
  if hres = 0 then .ok () else .error (.hresultError hres)

/-- The `FilterValue` enum from `query.rs`. -/
inductive FilterValue where
  | Bool (b : Bool)
  | Number (n : Int)
  | Str (s : String)
  | String (s : String)
  deriving DecidableEq, Repr

/-- The rendering of one filter value inside the `for (field, filter)`
loop of `build_query`. -/
def renderFilterValue : FilterValue → String
  | .Bool b => if b then "true" else "false"
  | .Number n => toString n
  | .Str s => "\"" ++ s ++ "\""
  | .String s => "\"" ++ s ++ "\""

/-- One rendered condition (`format!("{} = {}", field, value)`). -/
def renderCondition (field : String) (v : FilterValue) : String :=
  field ++ " = " ++ renderFilterValue v

/-- Lexicographic comparison of character lists by code point.  On UTF-8
encoded strings, byte-lexicographic order (what Rust's `Vec<String>::sort`
uses) coincides with code-point lexicographic order. -/
def charListLe : List Char → List Char → Bool
  | [], _ => true
  | _ :: _, [] => false
  | a :: as, b :: bs =>
    if a.toNat < b.toNat then true
    else if b.toNat < a.toNat then false
    else charListLe as bs

/-- The order used by `conditions.sort()` in `build_query`: Rust's
(byte-)lexicographic order on strings. -/
def condLe (a b : String) : Bool :=
  charListLe a.data b.data

/-- The `build_query` function.  The Rust function obtains `(name,
fields)` from `struct_name_and_fields::<T>()` (in `de/meta.rs`, outside
the extracted sources); here they are passed explicitly.  The filter
`HashMap` is modelled as an association list in an arbitrary iteration
order; `conditions.sort()` is a sort under `condLe`. -/
def build_query (name : String) (fields : List String)
    (filters : Option (List (String × FilterValue))) : String :=
  let optional_where_clause :=
    match filters with
    | none => ""
    | some filters =>
      if filters.isEmpty then ""
      else
        let conditions := filters.map (fun p => renderCondition p.1 p.2)
        let conditions := List.insertionSort (fun a b => condLe a b = true) conditions
        "WHERE " ++ String.intercalate " AND " conditions
  "SELECT " ++ String.intercalate "," fields ++ " FROM " ++ name ++ " "
    ++ optional_where_clause

/-- The result of one foreign `IEnumWbemClassObject::Next` call: the
returned status `hres`, the value written to `return_value`, and the
pointer written to `pcls_obj` (0 models NULL). -/
structure NextResponse where
  hres : Int
  returnValue : Nat
  obj : Nat
  deriving DecidableEq, Repr

/-- The `Unique::new` null check: a raw pointer becomes `none` exactly
when it is NULL. -/
def uniqueNew (p : Nat) : Option Nat :=
  if p = 0 then none else some p

/-- The `IWbemClassWrapper` struct: `inner: Option<Unique<IWbemClassObject>>`. -/
structure IWbemClassWrapper where
  inner : Option Nat
  deriving DecidableEq, Repr

/-- The constructor `IWbemClassWrapper::new`. -/
def IWbemClassWrapper.new (ptr : Option Nat) : IWbemClassWrapper :=
  { inner := ptr }

/-- The `QueryResultEnumerator` struct.  The `wmi_con` borrow carries no
state relevant to the modelled behaviour and is omitted; the
`p_enumerator: Option<Unique<IEnumWbemClassObject>>` field is kept. -/
structure QueryResultEnumerator where
  p_enumerator : Option Nat
  deriving DecidableEq, Repr

/-- Everything observable about one call to
`<QueryResultEnumerator as Iterator>::next`: the yielded item (if any),
the state afterwards, whether the foreign `Next` call was attempted, and
which handles the call released. -/
structure NextOutcome where
  yielded : Option (Except WMIError IWbemClassWrapper)
  state : QueryResultEnumerator
  foreignCall : Bool
  released : List Nat

/-- The body of `Iterator::next` for `QueryResultEnumerator`, answered by
the provider response `resp` when the foreign call is attempted.  Note
that no branch modifies `p_enumerator` and no branch releases a handle. -/
def QueryResultEnumerator.next (self : QueryResultEnumerator)
    (resp : NextResponse) : NextOutcome :=
  match self.p_enumerator with
  | none => { yielded := none, state := self, foreignCall := false, released := [] }
  | some _ =>
    match check_hres resp.hres with
    | .error e =>
      { yielded := some (.error e), state := self, foreignCall := true, released := [] }
    | .ok _ =>
      if resp.returnValue = 0 then
        { yielded := none, state := self, foreignCall := true, released := [] }
      else
        { yielded := some (.ok (IWbemClassWrapper.new (uniqueNew resp.obj)))
          state := self, foreignCall := true, released := [] }

/-- The body of `Drop for QueryResultEnumerator`: release the handle iff
one is present.  Returns the list of released handles. -/
def QueryResultEnumerator.dropReleases (self : QueryResultEnumerator) : List Nat :=
  match self.p_enumerator with
  | none => []
  | some p => [p]

/-- Run a sequence of `next` calls, one provider response per call,
collecting the handles released along the way. -/
def runNexts : QueryResultEnumerator → List NextResponse →
    QueryResultEnumerator × List Nat
  | st, [] => (st, [])
  | st, r :: rs =>
    let o := st.next r
    let p := runNexts o.state rs
    (p.1, o.released ++ p.2)

/-- A whole enumerator lifetime: a sequence of `next` calls followed by
the drop; the list of handles released over the lifetime. -/
def lifecycleReleases (st : QueryResultEnumerator) (rs : List NextResponse) :
    List Nat :=
  let p := runNexts st rs
  p.2 ++ p.1.dropReleases

/-- The accessor `QueryResultEnumerator::p`, which calls
`self.p_enumerator.unwrap()`: `none` models the panic on a missing
handle. -/
def QueryResultEnumerator.p (self : QueryResultEnumerator) : Option Nat :=
  match self.p_enumerator with
  | none => none
  | some ptr => some ptr

/-- Whether a string contains a NUL value. -/
def hasInteriorNul (s : String) : Bool :=
  s.data.any (fun c => c.toNat == 0)

/-- Modelled from the spec: `WideCString::from_str` — conversion of query
text to the provider's wide-string form fails (with the malformed-query
error kind) exactly when the text contains an interior NUL. -/
def wideCStringFromStr (s : String) : Except WMIError (List Nat) :=
  if hasInteriorNul s then .error .nulError
  else .ok (s.data.map Char.toNat)

/-- The foreign world consumed by `exec_query_native_wrapper`: the status
returned by `IWbemServices::ExecQuery` and the enumerator pointer it
writes (0 models NULL). -/
structure ExecWorld where
  execHres : Int
  execHandle : Nat
  deriving DecidableEq, Repr

/-- Everything observable about one call to `exec_query_native_wrapper`:
its result and whether the foreign `ExecQuery` call was invoked. -/
structure ExecOutcome where
  result : Except WMIError QueryResultEnumerator
  execInvoked : Bool

/-- The body of `WMIConnection::exec_query_native_wrapper`: convert
"WQL" and the query text to wide strings (each `?` propagates a
conversion failure before `ExecQuery` is reached), then run `ExecQuery`
and wrap the written pointer with `Unique::new`. -/
def exec_query_native_wrapper (w : ExecWorld) (query : String) : ExecOutcome :=
  match wideCStringFromStr "WQL" with
  | .error e => { result := .error e, execInvoked := false }
  | .ok _ =>
    match wideCStringFromStr query with
    | .error e => { result := .error e, execInvoked := false }
    | .ok _ =>
      match check_hres w.execHres with
      | .error e => { result := .error e, execInvoked := true }
      | .ok _ =>
        { result := .ok { p_enumerator := uniqueNew w.execHandle }
          execInvoked := true }

/-- The foreign world consumed by `raw_query`: the `ExecQuery` behaviour,
the successive `Next` responses, and the behaviour of
`from_wbem_class_obj` (the Decoder, which lives in `de/`, outside the
extracted sources) on each yielded object. -/
structure QueryWorld (T : Type) where
  exec : ExecWorld
  responses : List NextResponse
  decode : IWbemClassWrapper → Except WMIError T

/-- The `enumerator.map(decode).collect::<Result<Vec<T>, _>>()` loop of
`raw_query`: pull items one at a time; stop with `ok` at the iterator's
`None`; stop with the error at the first failed advance or decode.  When
the response list is exhausted the provider is treated as reporting
end-of-results. -/
def drain {T : Type} (decode : IWbemClassWrapper → Except WMIError T) :
    QueryResultEnumerator → List NextResponse → Except WMIError (List T)
  | _, [] => .ok []
  | st, r :: rs =>
    let o := st.next r
    match o.yielded with
    | none => .ok []
    | some (.error e) => .error e
    | some (.ok w) =>
      match decode w with
      | .error e => .error e
      | .ok t => (drain decode o.state rs).map (fun l => t :: l)

/-- The body of `WMIConnection::raw_query`. -/
def raw_query {T : Type} (w : QueryWorld T) (query : String) :
    Except WMIError (List T) :=
  match (exec_query_native_wrapper w.exec query).result with
  | .error e => .error e
  | .ok enumerator => drain w.decode enumerator w.responses

/-- The body of `WMIConnection::query`: build the query with no filters,
then `raw_query`. -/
def query {T : Type} (w : QueryWorld T) (name : String) (fields : List String) :
    Except WMIError (List T) :=
  raw_query w (build_query name fields none)

/-- The body of `WMIConnection::filtered_query`: build the query with the
given filters, then `raw_query`. -/
def filtered_query {T : Type} (w : QueryWorld T) (name : String)
    (fields : List String) (filters : List (String × FilterValue)) :
    Except WMIError (List T) :=
  raw_query w (build_query name fields (some filters))

/-- The foreign world consumed by `list_properties`: the status of the
`GetNames` call and the `SAFEARRAY` pointer it writes, the behaviour of
`safe_array_to_vec_of_strings` (in `safearray.rs`, outside the extracted
sources) on that array, and the status of `SafeArrayDestroy`. -/
structure GetNamesWorld where
  getNamesHres : Int
  namesArray : Nat
  convert : Nat → Except WMIError (List String)
  destroyHres : Int

/-- Everything observable about one call to `list_properties`: its result
and the foreign arrays destroyed before returning. -/
structure ListPropsOutcome where
  result : Except WMIError (List String)
  destroyed : List Nat

/-- The body of `IWbemClassWrapper::list_properties`.  The outer `none`
models the panic of `self.inner.unwrap()` on a missing handle.  Faithful
ordering from the source: `GetNames` has its status checked with an early
return; the conversion result is bound to `res`; `SafeArrayDestroy` is
then always invoked, its failure status propagating in preference to
`res`; otherwise `res` is returned. -/
def IWbemClassWrapper.list_properties (self : IWbemClassWrapper)
    (w : GetNamesWorld) : Option ListPropsOutcome :=
  match self.inner with
  | none => none
  | some _ =>
    match check_hres w.getNamesHres with
    | .error e => some { result := .error e, destroyed := [] }
    | .ok _ =>
      let res := w.convert w.namesArray
      match check_hres w.destroyHres with
      | .error e => some { result := .error e, destroyed := [w.namesArray] }
      | .ok _ => some { result := res, destroyed := [w.namesArray] }

/-- The item stream an enumerator yields to a consumer that pulls until
the iterator's `None`: one item per `next` call that yields one. -/
def yielded : QueryResultEnumerator → List NextResponse →
    List (Except WMIError IWbemClassWrapper)
  | _, [] => []
  | st, r :: rs =>
    let o := st.next r
    match o.yielded with
    | none => []
    | some item => item :: yielded o.state rs

/-- Rust's `collect::<Result<Vec<T>, E>>()`: succeed with the list of all
payloads if every element is `ok`, otherwise stop at the first `error`. -/
def collectExcept {E T : Type} : List (Except E T) → Except E (List T)
  | [] => .ok []
  | .error e :: _ => .error e
  | .ok t :: rest => (collectExcept rest).map (fun l => t :: l)

/-! Helper lemmas about the condition order used by `conditions.sort()`. -/

theorem charListLe_total : ∀ a b, charListLe a b = true ∨ charListLe b a = true := by
  intro a
  induction a with
  | nil => intro b; left; rfl
  | cons x xs ih =>
    intro b
    cases b with
    | nil => right; rfl
    | cons y ys =>
      by_cases h1 : x.toNat < y.toNat
      · left; simp [charListLe, h1]
      · by_cases h2 : y.toNat < x.toNat
        · right; simp [charListLe, h1, h2]
        · rcases ih ys with h | h
          · left; simp [charListLe, h1, h2, h]
          · right; simp [charListLe, h1, h2, h]

theorem charListLe_trans :
    ∀ a b c, charListLe a b = true → charListLe b c = true → charListLe a c = true := by
  intro a
  induction a with
  | nil => intro b c _ _; rfl
  | cons x xs ih =>
    intro b c hab hbc
    cases b with
    | nil => simp [charListLe] at hab
    | cons y ys =>
      cases c with
      | nil => simp [charListLe] at hbc
      | cons z zs =>
        by_cases hxy : x.toNat < y.toNat
        · by_cases hyz : y.toNat < z.toNat
          · have hxz : x.toNat < z.toNat := Nat.lt_trans hxy hyz
            simp [charListLe, hxz]
          · by_cases hzy : z.toNat < y.toNat
            · simp [charListLe, hyz, hzy] at hbc
            · have hxz : x.toNat < z.toNat := by omega
              simp [charListLe, hxz]
        · by_cases hyx : y.toNat < x.toNat
          · simp [charListLe, hxy, hyx] at hab
          · by_cases hyz : y.toNat < z.toNat
            · have hxz : x.toNat < z.toNat := by omega
              simp [charListLe, hxz]
            · by_cases hzy : z.toNat < y.toNat
              · simp [charListLe, hyz, hzy] at hbc
              · have hxz : ¬ x.toNat < z.toNat := by omega
                have hzx : ¬ z.toNat < x.toNat := by omega
                have hab' : charListLe xs ys = true := by
                  simpa [charListLe, hxy, hyx] using hab
                have hbc' : charListLe ys zs = true := by
                  simpa [charListLe, hyz, hzy] using hbc
                simpa [charListLe, hxz, hzx] using ih ys zs hab' hbc'

theorem charListLe_antisymm :
    ∀ a b, charListLe a b = true → charListLe b a = true → a = b := by
  intro a
  induction a with
  | nil =>
    intro b _ hba
    cases b with
    | nil => rfl
    | cons y ys => simp [charListLe] at hba
  | cons x xs ih =>
    intro b hab hba
    cases b with
    | nil => simp [charListLe] at hab
    | cons y ys =>
      by_cases hxy : x.toNat < y.toNat
      · have hyx : ¬ y.toNat < x.toNat := by omega
        simp [charListLe, hxy, hyx] at hba
      · by_cases hyx : y.toNat < x.toNat
        · simp [charListLe, hxy, hyx] at hab
        · have hc : x = y := by
            refine Char.eq_of_val_eq (UInt32.ext ?_)
            have h1 : x.toNat = x.val.toNat := rfl
            have h2 : y.toNat = y.val.toNat := rfl
            omega
          have hab' : charListLe xs ys = true := by
            simpa [charListLe, hxy, hyx] using hab
          have hba' : charListLe ys xs = true := by
            simpa [charListLe, hxy, hyx] using hba
          rw [hc, ih ys hab' hba']

theorem condLe_total : ∀ a b : String, condLe a b = true ∨ condLe b a = true :=
  fun a b => charListLe_total a.data b.data

theorem condLe_trans :
    ∀ a b c : String, condLe a b = true → condLe b c = true → condLe a c = true :=
  fun a b c => charListLe_trans a.data b.data c.data

theorem condLe_antisymm :
    ∀ a b : String, condLe a b = true → condLe b a = true → a = b := by
  intro a b hab hba
  cases a with
  | mk da =>
    cases b with
    | mk db =>
      have : da = db := charListLe_antisymm da db hab hba
      rw [this]

/-- Shape of `build_query` on a non-empty filter list: the WHERE clause is
the sorted rendered conditions joined with " AND ". -/
theorem build_query_some_shape (name : String) (fields : List String)
    (l : List (String × FilterValue)) (hne : l ≠ []) :
    build_query name fields (some l)
      = "SELECT " ++ String.intercalate "," fields ++ " FROM " ++ name ++ " "
        ++ ("WHERE " ++ String.intercalate " AND "
            (List.insertionSort (fun a b => condLe a b = true)
              (l.map (fun p => renderCondition p.1 p.2)))) := by
  cases l with
  | nil => exact absurd rfl hne
  | cons p ps => rfl

/-- C2: for every non-empty filter mapping, the WHERE clause of
`build_query`'s output consists of the rendered conditions joined with
" AND " in lexicographically sorted order by rendered condition string,
independent of the mapping's iteration order; two calls with equal filter
sets (permutations of one another) produce byte-identical query text. -/
theorem build_query_where_sorted_deterministic (name : String)
    (fields : List String) (l1 l2 : List (String × FilterValue))
    (hp : l1.Perm l2) (hne : l1 ≠ []) :
    build_query name fields (some l1) = build_query name fields (some l2) ∧
    build_query name fields (some l1)
      = "SELECT " ++ String.intercalate "," fields ++ " FROM " ++ name ++ " "
        ++ ("WHERE " ++ String.intercalate " AND "
            (List.insertionSort (fun a b => condLe a b = true)
              (l1.map (fun p => renderCondition p.1 p.2)))) ∧
    List.Sorted (fun a b => condLe a b = true)
      (List.insertionSort (fun a b => condLe a b = true)
        (l1.map (fun p => renderCondition p.1 p.2))) ∧
    (List.insertionSort (fun a b => condLe a b = true)
        (l1.map (fun p => renderCondition p.1 p.2))).Perm
      (l1.map (fun p => renderCondition p.1 p.2)) := by
  haveI : IsTotal String (fun a b => condLe a b = true) := ⟨condLe_total⟩
  haveI : IsTrans String (fun a b => condLe a b = true) := ⟨condLe_trans⟩
  haveI : IsAntisymm String (fun a b => condLe a b = true) := ⟨condLe_antisymm⟩
  have hne2 : l2 ≠ [] := by
    intro h
    subst h
    exact hne hp.eq_nil
  have hmap : (l1.map (fun p => renderCondition p.1 p.2)).Perm
      (l2.map (fun p => renderCondition p.1 p.2)) := hp.map _
  have hsorteq : List.insertionSort (fun a b => condLe a b = true)
        (l1.map (fun p => renderCondition p.1 p.2))
      = List.insertionSort (fun a b => condLe a b = true)
        (l2.map (fun p => renderCondition p.1 p.2)) := by
    exact List.eq_of_perm_of_sorted
      ((List.perm_insertionSort _ _).trans
        (hmap.trans (List.perm_insertionSort _ _).symm))
      (List.sorted_insertionSort _ _) (List.sorted_insertionSort _ _)
  refine ⟨?_, build_query_some_shape name fields l1 hne,
    List.sorted_insertionSort _ _, List.perm_insertionSort _ _⟩
  rw [build_query_some_shape name fields l1 hne,
    build_query_some_shape name fields l2 hne2, hsorteq]

/-- Witness for C2 at a concrete pair of filter lists that are
permutations of one another. -/
theorem build_query_where_sorted_deterministic_witness :
    build_query "Win32_OperatingSystem" ["Caption"]
        (some [("B", FilterValue.Number 2), ("A", FilterValue.Bool true)])
      = build_query "Win32_OperatingSystem" ["Caption"]
        (some [("A", FilterValue.Bool true), ("B", FilterValue.Number 2)]) :=
  (build_query_where_sorted_deterministic "Win32_OperatingSystem" ["Caption"]
      [("B", FilterValue.Number 2), ("A", FilterValue.Bool true)]
      [("A", FilterValue.Bool true), ("B", FilterValue.Number 2)]
      (List.Perm.swap ("A", FilterValue.Bool true) ("B", FilterValue.Number 2) [])
      (by decide)).1

/-- C3: each filter entry renders as "field = literal" with booleans as
bare words, numbers as decimal digits, and text double-quote-wrapped with
no escaping; on the scenario filters the query text is exactly as
specified. -/
theorem build_query_rendering_scenario :
    (∀ b : Bool, renderFilterValue (FilterValue.Bool b)
        = if b then "true" else "false") ∧
    (∀ n : Int, renderFilterValue (FilterValue.Number n) = toString n) ∧
    (∀ s : String, renderFilterValue (FilterValue.Str s) = "\"" ++ s ++ "\"") ∧
    (∀ s : String, renderFilterValue (FilterValue.String s) = "\"" ++ s ++ "\"") ∧
    (∀ f v, renderCondition f v = f ++ " = " ++ renderFilterValue v) ∧
    build_query "Win32_OperatingSystem" ["Caption"]
        (some [("C1", FilterValue.Str "a"), ("C2", FilterValue.String "b"),
               ("C3", FilterValue.Number 42), ("C4", FilterValue.Bool false)])
      = "SELECT Caption FROM Win32_OperatingSystem WHERE C1 = \"a\" AND C2 = \"b\" AND C3 = 42 AND C4 = false" :=
  ⟨fun _ => rfl, fun _ => rfl, fun _ => rfl, fun _ => rfl, fun _ _ => rfl, by rfl⟩

/-- C4: with no filters (or an empty filter mapping) `build_query` emits
no WHERE token and returns exactly "SELECT ", the fields joined by a
comma with no space in declared order, " FROM ", the type name, and a
single trailing space. -/
theorem build_query_no_filters (name : String) (fields : List String) :
    build_query name fields none
        = "SELECT " ++ String.intercalate "," fields ++ " FROM " ++ name ++ " " ∧
    build_query name fields (some [])
        = "SELECT " ++ String.intercalate "," fields ++ " FROM " ++ name ++ " " ∧
    ¬ "WHERE".data <:+: (build_query "Win32_OperatingSystem" ["Caption"] none).data ∧
    build_query "Win32_OperatingSystem" ["Caption"] none
        = "SELECT Caption FROM Win32_OperatingSystem " := by
  refine ⟨?_, ?_, by decide, by rfl⟩
  · simp [build_query]
  · simp [build_query]

/-- C6: the typed entry points are exactly the composition of the query
builder and `raw_query`, adding no other behaviour. -/
theorem typed_query_composition (T : Type) (w : QueryWorld T) (name : String)
    (fields : List String) (filters : List (String × FilterValue)) :
    query w name fields = raw_query w (build_query name fields none) ∧
    filtered_query w name fields filters
      = raw_query w (build_query name fields (some filters)) :=
  ⟨rfl, rfl⟩

/-- C1 counterexample: after a zero-item response (state `some 1`,
response with `return_value = 0`), the enumerator state is unchanged, so
a subsequent `next()` re-attempts the foreign `Next` call — and, if the
provider then returns an item, even yields it — contradicting the claim
that subsequent calls yield nothing and never re-attempt the foreign
call. -/
theorem next_after_exhaustion_cex :
    (QueryResultEnumerator.next ⟨some 1⟩ ⟨0, 0, 0⟩).yielded = none ∧
    (QueryResultEnumerator.next ⟨some 1⟩ ⟨0, 0, 0⟩).state = ⟨some 1⟩ ∧
    (QueryResultEnumerator.next ⟨some 1⟩ ⟨0, 1, 5⟩).foreignCall = true ∧
    (QueryResultEnumerator.next ⟨some 1⟩ ⟨0, 1, 5⟩).yielded
      = some (.ok ⟨some 5⟩) :=
  ⟨rfl, rfl, rfl, rfl⟩

/-- C1 amended: a zero-item success response makes `next()` yield nothing
on that call but leaves the enumerator state unchanged; a later `next()`
on a live handle always re-attempts the foreign `Next` call, and only an
enumerator whose handle is absent yields nothing without a foreign
call. -/
theorem next_after_exhaustion_amended (st : QueryResultEnumerator)
    (r r2 : NextResponse) :
    (check_hres r.hres = .ok () → r.returnValue = 0 →
        (st.next r).yielded = none ∧ (st.next r).state = st) ∧
    (st.p_enumerator = none →
        (st.next r2).yielded = none ∧ (st.next r2).foreignCall = false) ∧
    (st.p_enumerator.isSome = true → (st.next r2).foreignCall = true) := by
  obtain ⟨pe⟩ := st
  refine ⟨?_, ?_, ?_⟩
  · intro h1 h2
    cases pe with
    | none => exact ⟨rfl, rfl⟩
    | some p => simp [QueryResultEnumerator.next, h1, h2]
  · intro h
    cases pe with
    | none => exact ⟨rfl, rfl⟩
    | some p => simp at h
  · intro h
    cases pe with
    | none => simp at h
    | some p =>
      cases hc : check_hres r2.hres with
      | error e => simp [QueryResultEnumerator.next, hc]
      | ok u =>
        by_cases hr : r2.returnValue = 0 <;>
          simp [QueryResultEnumerator.next, hc, hr]

/-- Witness for the amended C1 at concrete inputs. -/
theorem next_after_exhaustion_amended_witness :
    (QueryResultEnumerator.next ⟨some 1⟩ ⟨0, 0, 0⟩).yielded = none ∧
    (QueryResultEnumerator.next ⟨some 1⟩ ⟨0, 0, 0⟩).state = ⟨some 1⟩ ∧
    (QueryResultEnumerator.next ⟨some 1⟩ ⟨0, 1, 5⟩).foreignCall = true :=
  ⟨((next_after_exhaustion_amended ⟨some 1⟩ ⟨0, 0, 0⟩ ⟨0, 1, 5⟩).1 rfl rfl).1,
   ((next_after_exhaustion_amended ⟨some 1⟩ ⟨0, 0, 0⟩ ⟨0, 1, 5⟩).1 rfl rfl).2,
   (next_after_exhaustion_amended ⟨some 1⟩ ⟨0, 0, 0⟩ ⟨0, 1, 5⟩).2.2 rfl⟩

/-- C7: `list_properties` fails with a classified error (carrying the raw
status) whenever `GetNames` reports a failure status — in which case no
array was obtained and none is destroyed — and whenever `GetNames`
succeeds, the obtained array is destroyed before returning, on every
path, including when the array-to-string conversion fails. -/
theorem list_properties_scoped_release (h : Nat) (w : GetNamesWorld) :
    (w.getNamesHres ≠ 0 →
        IWbemClassWrapper.list_properties ⟨some h⟩ w
          = some ⟨.error (.hresultError w.getNamesHres), []⟩) ∧
    (w.getNamesHres = 0 →
        ∃ r, IWbemClassWrapper.list_properties ⟨some h⟩ w
          = some ⟨r, [w.namesArray]⟩) := by
  constructor
  · intro hg
    simp [IWbemClassWrapper.list_properties, check_hres, hg]
  · intro hg
    cases hd : check_hres w.destroyHres with
    | error e =>
      exact ⟨.error e, by
        simp [IWbemClassWrapper.list_properties, check_hres, hg] at hd ⊢
        simp [hd]⟩
    | ok u =>
      exact ⟨w.convert w.namesArray, by
        simp [IWbemClassWrapper.list_properties, check_hres, hg] at hd ⊢
        simp [hd]⟩

/-- Witness for C7: a failing `GetNames` yields the classified error with
no array destroyed, and a successful `GetNames` whose conversion fails
still destroys the array. -/
theorem list_properties_scoped_release_witness :
    IWbemClassWrapper.list_properties ⟨some 3⟩
        ⟨-5, 7, fun _ => .ok [], 0⟩
      = some ⟨.error (.hresultError (-5)), []⟩ ∧
    (∃ r, IWbemClassWrapper.list_properties ⟨some 3⟩
        ⟨0, 7, fun _ => .error (.convertError 1), 0⟩
      = some ⟨r, [7]⟩) :=
  ⟨(list_properties_scoped_release 3 ⟨-5, 7, fun _ => .ok [], 0⟩).1 (by decide),
   (list_properties_scoped_release 3
      ⟨0, 7, fun _ => .error (.convertError 1), 0⟩).2 rfl⟩

/-- C8: query text that cannot be converted to the provider's wide-string
form (it contains a NUL) makes `exec_query_native_wrapper` return the
malformed-query-text error without ever invoking `ExecQuery`. -/
theorem exec_query_malformed_text (w : ExecWorld) (q : String)
    (hnul : hasInteriorNul q = true) :
    (exec_query_native_wrapper w q).result = .error .nulError ∧
    (exec_query_native_wrapper w q).execInvoked = false := by
  have hwql : wideCStringFromStr "WQL" = .ok [87, 81, 76] := by rfl
  have hq : wideCStringFromStr q = .error .nulError := by
    simp [wideCStringFromStr, hnul]
  constructor <;> simp [exec_query_native_wrapper, hwql, hq]

/-- Witness for C8 at a query string with an interior NUL. -/
theorem exec_query_malformed_text_witness :
    (exec_query_native_wrapper ⟨0, 7⟩ "a\x00b").result = .error .nulError ∧
    (exec_query_native_wrapper ⟨0, 7⟩ "a\x00b").execInvoked = false :=
  exec_query_malformed_text ⟨0, 7⟩ "a\x00b" (by decide)

/-- C10: `list_properties` and `p` unwrap their optional handle
unconditionally: on a wrapper or enumerator holding no handle they panic
(modelled by the outer `none`) instead of returning an error, and they
are total whenever a handle is present. -/
theorem unwrap_requires_handle (w : GetNamesWorld) (h : Nat)
    (st : QueryResultEnumerator) :
    IWbemClassWrapper.list_properties ⟨none⟩ w = none ∧
    QueryResultEnumerator.p ⟨none⟩ = none ∧
    (IWbemClassWrapper.list_properties ⟨some h⟩ w).isSome = true ∧
    (st.p_enumerator.isSome = true → st.p.isSome = true) := by
  refine ⟨rfl, rfl, ?_, ?_⟩
  · cases hg : check_hres w.getNamesHres with
    | error e => simp [IWbemClassWrapper.list_properties, hg]
    | ok u =>
      cases hd : check_hres w.destroyHres with
      | error e => simp [IWbemClassWrapper.list_properties, hg, hd]
      | ok v => simp [IWbemClassWrapper.list_properties, hg, hd]
  · intro hs
    obtain ⟨pe⟩ := st
    cases pe with
    | none => simp at hs
    | some p => rfl

/-- Witness for C10 at a concrete world, handle and enumerator state. -/
theorem unwrap_requires_handle_witness :
    IWbemClassWrapper.list_properties ⟨none⟩ ⟨0, 7, fun _ => .ok [], 0⟩ = none ∧
    QueryResultEnumerator.p ⟨none⟩ = none ∧
    (IWbemClassWrapper.list_properties ⟨some 2⟩
        ⟨0, 7, fun _ => .ok [], 0⟩).isSome = true ∧
    (QueryResultEnumerator.p ⟨some 9⟩).isSome = true :=
  ⟨(unwrap_requires_handle ⟨0, 7, fun _ => .ok [], 0⟩ 2 ⟨some 9⟩).1,
   (unwrap_requires_handle ⟨0, 7, fun _ => .ok [], 0⟩ 2 ⟨some 9⟩).2.1,
   (unwrap_requires_handle ⟨0, 7, fun _ => .ok [], 0⟩ 2 ⟨some 9⟩).2.2.1,
   (unwrap_requires_handle ⟨0, 7, fun _ => .ok [], 0⟩ 2 ⟨some 9⟩).2.2.2 rfl⟩

/-- `next` never modifies the enumerator state and never releases a
handle, in every branch. -/
theorem next_preserves (st : QueryResultEnumerator) (r : NextResponse) :
    (st.next r).state = st ∧ (st.next r).released = [] := by
  obtain ⟨pe⟩ := st
  cases pe with
  | none => exact ⟨rfl, rfl⟩
  | some p =>
    cases hc : check_hres r.hres with
    | error e => simp [QueryResultEnumerator.next, hc]
    | ok u =>
      by_cases hr : r.returnValue = 0 <;>
        simp [QueryResultEnumerator.next, hc, hr]

/-- A run of `next` calls leaves the state unchanged and releases
nothing. -/
theorem runNexts_id : ∀ (rs : List NextResponse) (st : QueryResultEnumerator),
    runNexts st rs = (st, []) := by
  intro rs
  induction rs with
  | nil => intro st; rfl
  | cons r rs ih =>
    intro st
    have h := next_preserves st r
    simp [runNexts, h.1, h.2, ih]

/-- Over a whole lifetime, the only release is the one in `Drop`. -/
theorem lifecycleReleases_eq_drop (st : QueryResultEnumerator)
    (rs : List NextResponse) :
    lifecycleReleases st rs = st.dropReleases := by
  unfold lifecycleReleases
  rw [runNexts_id]
  rfl

/-- C9: a cursor handle acquired by `exec_query_native_wrapper` is
released exactly once over any sequence of `next` calls followed by the
drop: `next` never releases the handle, and `Drop` releases it exactly
when a non-null handle was acquired. -/
theorem enumerator_handle_released_once (w : ExecWorld) (q : String)
    (enum : QueryResultEnumerator) (rs : List NextResponse)
    (hexec : (exec_query_native_wrapper w q).result = .ok enum) :
    (∀ (st : QueryResultEnumerator) (r : NextResponse),
        (st.next r).released = [] ∧ (st.next r).state = st) ∧
    lifecycleReleases enum rs
      = (if w.execHandle = 0 then [] else [w.execHandle]) := by
  refine ⟨fun st r => ⟨(next_preserves st r).2, (next_preserves st r).1⟩, ?_⟩
  have hwql : wideCStringFromStr "WQL" = .ok [87, 81, 76] := by rfl
  have henum : enum = ⟨uniqueNew w.execHandle⟩ := by
    unfold exec_query_native_wrapper at hexec
    rw [hwql] at hexec
    cases hq : wideCStringFromStr q with
    | error e => rw [hq] at hexec; simp at hexec
    | ok l =>
      rw [hq] at hexec
      cases hc : check_hres w.execHres with
      | error e => rw [hc] at hexec; simp at hexec
      | ok u =>
        rw [hc] at hexec
        simp at hexec
        exact hexec.symm
  rw [henum, lifecycleReleases_eq_drop]
  by_cases hz : w.execHandle = 0 <;>
    simp [QueryResultEnumerator.dropReleases, uniqueNew, hz]

/-- Witness for C9: a concrete acquired handle is released exactly once
after two next calls and the drop. -/
theorem enumerator_handle_released_once_witness :
    lifecycleReleases ⟨some 7⟩ [⟨0, 1, 5⟩, ⟨0, 0, 0⟩]
      = (if (7 : Nat) = 0 then [] else [7]) :=
  (enumerator_handle_released_once ⟨0, 7⟩ "SELECT A FROM B" ⟨some 7⟩
      [⟨0, 1, 5⟩, ⟨0, 0, 0⟩] rfl).2

/-- The `map`/`collect` loop of `raw_query` equals collecting the mapped
item stream. -/
theorem drain_eq_collect {T : Type} (decode : IWbemClassWrapper → Except WMIError T) :
    ∀ (rs : List NextResponse) (st : QueryResultEnumerator),
    drain decode st rs
      = collectExcept ((yielded st rs).map (fun it => it.bind decode)) := by
  intro rs
  induction rs with
  | nil => intro st; rfl
  | cons r rs ih =>
    intro st
    cases hy : (st.next r).yielded with
    | none => simp [drain, yielded, hy, collectExcept]
    | some item =>
      cases item with
      | error e => simp [drain, yielded, hy, collectExcept, Except.bind]
      | ok v =>
        cases hd : decode v with
        | error e =>
          simp [drain, yielded, hy, hd, collectExcept, Except.bind]
        | ok t =>
          simp [drain, yielded, hy, hd, collectExcept, Except.bind, ih]

/-- `collectExcept` succeeds only when every element is `ok`, and the
result is the full payload sequence. -/
theorem collectExcept_ok {E T : Type} :
    ∀ (items : List (Except E T)) (l : List T),
    collectExcept items = .ok l → items = l.map Except.ok := by
  intro items
  induction items with
  | nil =>
    intro l h
    simp [collectExcept] at h
    subst h
    rfl
  | cons it rest ih =>
    intro l h
    cases it with
    | error e => simp [collectExcept] at h
    | ok t =>
      cases hr : collectExcept rest with
      | error e => simp [collectExcept, hr, Except.map] at h
      | ok l' =>
        simp [collectExcept, hr, Except.map] at h
        rw [← h]
        simp [ih l' hr]

/-- An error anywhere in the list makes `collectExcept` return an
error. -/
theorem collectExcept_error {E T : Type} :
    ∀ (items : List (Except E T)) (e : E), Except.error e ∈ items →
    ∃ e0, collectExcept items = .error e0 := by
  intro items
  induction items with
  | nil => intro e h; simp at h
  | cons it rest ih =>
    intro e h
    cases it with
    | error e1 => exact ⟨e1, rfl⟩
    | ok t =>
      have hm : Except.error e ∈ rest := by
        rcases List.mem_cons.mp h with h1 | h1
        · cases h1
        · exact h1
      obtain ⟨e0, he⟩ := ih e hm
      exact ⟨e0, by simp [collectExcept, he, Except.map]⟩

/-- With a successful execution, `raw_query` runs the drain loop. -/
theorem raw_query_eq_drain {T : Type} (w : QueryWorld T) (q : String)
    (enum : QueryResultEnumerator)
    (hexec : (exec_query_native_wrapper w.exec q).result = .ok enum) :
    raw_query w q = drain w.decode enum w.responses := by
  unfold raw_query
  rw [hexec]

/-- C5: `raw_query` is fail-fast: it returns `ok l` only when every
enumerated item advances and decodes successfully and `l` is the full
decoded sequence; if any item of the stream is an enumeration or decode
error, the whole call returns an error and no partial sequence. -/
theorem raw_query_fail_fast {T : Type} (w : QueryWorld T) (q : String)
    (enum : QueryResultEnumerator)
    (hexec : (exec_query_native_wrapper w.exec q).result = .ok enum) :
    (∀ l, raw_query w q = .ok l →
        (yielded enum w.responses).map (fun it => it.bind w.decode)
          = l.map Except.ok) ∧
    (∀ e, Except.error e
          ∈ (yielded enum w.responses).map (fun it => it.bind w.decode) →
        ∃ e0, raw_query w q = .error e0 ∧ ∀ l, raw_query w q ≠ .ok l) := by
  have hr : raw_query w q
      = collectExcept ((yielded enum w.responses).map (fun it => it.bind w.decode)) := by
    rw [raw_query_eq_drain w q enum hexec, drain_eq_collect]
  constructor
  · intro l hok
    rw [hr] at hok
    exact collectExcept_ok _ l hok
  · intro e hmem
    obtain ⟨e0, he0⟩ := collectExcept_error _ e hmem
    rw [← hr] at he0
    exact ⟨e0, he0, by intro l hl; rw [he0] at hl; cases hl⟩

/-- Witness for C5 at a concrete world in which every item advances and
decodes successfully: the stream is exactly the decoded list. -/
theorem raw_query_fail_fast_witness :
    (yielded ⟨some 7⟩ [⟨0, 1, 5⟩, ⟨0, 0, 0⟩]).map
        (fun it => it.bind (fun _ => Except.ok (99 : Nat)))
      = [99].map Except.ok :=
  (raw_query_fail_fast
      (⟨⟨0, 7⟩, [⟨0, 1, 5⟩, ⟨0, 0, 0⟩], fun _ => Except.ok 99⟩ : QueryWorld Nat)
      "SELECT A FROM B" ⟨some 7⟩ rfl).1 [99] rfl

/-- Witness for C3 at concrete filter values, including an embedded quote
that passes through unescaped. -/
theorem build_query_rendering_scenario_witness :
    renderFilterValue (FilterValue.Bool false) = "false" ∧
    renderFilterValue (FilterValue.Number 42) = "42" ∧
    renderFilterValue (FilterValue.Str "a\"b") = "\"a\"b\"" :=
  ⟨(build_query_rendering_scenario.1 false).trans rfl,
   (build_query_rendering_scenario.2.1 42).trans rfl,
   (build_query_rendering_scenario.2.2.1 "a\"b").trans rfl⟩

/-- Witness for C4 at a concrete schema. -/
theorem build_query_no_filters_witness :
    build_query "Win32_OperatingSystem" ["Caption"] none
      = "SELECT " ++ String.intercalate "," ["Caption"] ++ " FROM "
        ++ "Win32_OperatingSystem" ++ " " :=
  (build_query_no_filters "Win32_OperatingSystem" ["Caption"]).1

/-- Witness for C6 at a concrete world and schema. -/
theorem typed_query_composition_witness :
    query (⟨⟨0, 7⟩, [], fun _ => Except.ok (0 : Nat)⟩ : QueryWorld Nat)
        "Win32_OperatingSystem" ["Caption"]
      = raw_query (⟨⟨0, 7⟩, [], fun _ => Except.ok (0 : Nat)⟩ : QueryWorld Nat)
        (build_query "Win32_OperatingSystem" ["Caption"] none) :=
  (typed_query_composition Nat ⟨⟨0, 7⟩, [], fun _ => Except.ok (0 : Nat)⟩
      "Win32_OperatingSystem" ["Caption"] []).1

end WmiSpec
